import Mathlib

/-!
Verification of the cwlogger library (cwlogger.go) against its
natural-language specification.

The Go source is shallowly embedded: each Go function that the claims
concern becomes a Lean function over explicit state, with every remote
CloudWatch Logs response passed in as an explicit parameter (the remote
service is an external collaborator).  Goroutine-local loop variables
(the coordinator's round-robin cursor) and channel contents (the
`writes` queue) are made fields of an explicit pool-state record, and
the `sync.WaitGroup` counters become integer fields.  A Go `panic`
becomes a distinguished outcome constructor, not an exception-free
simplification.

Helpers referenced by the source but not present in it
(`isErrorCode`/`errCodeThrottlingException`, `shouldRetry`, and the
batcher) are modelled from the spec and marked as such in their doc
comments.
-/

namespace Cwlogger

/-- A CloudWatch Logs input log event, restricted to the two fields the
library sets (cwlogger.go 108-111): the message string and the timestamp
in Unix milliseconds. -/
structure InputLogEvent where
  message : String
  timestamp : Int
deriving DecidableEq, Repr

/-- The error kinds a remote CloudWatch Logs call can produce, as the Go
code distinguishes them with `errors.As` (cwlogger.go 296-312): the two
sequencing exceptions carry the service-supplied expected sequence token;
everything else is represented by `throttling` (a ThrottlingException)
or `other` (any further remote failure, with its message). -/
inductive AwsErr where
  | invalidSequenceToken (expectedSequenceToken : Option String)
  | dataAlreadyAccepted (expectedSequenceToken : Option String)
  | throttling
  | other (msg : String)
deriving DecidableEq, Repr

/-- Modelled from the spec: the error-code string of each remote error
kind (the constant `errCodeThrottlingException` and the helper
`isErrorCode` used by `logStreams.handle` are referenced by the source
but their definitions are not under `src/`).  The string doubles as the
text of `err.Error()` for the panic message in `logStream.write`. -/
def AwsErr.code : AwsErr → String
  | .invalidSequenceToken _ => "InvalidSequenceTokenException"
  | .dataAlreadyAccepted _ => "DataAlreadyAcceptedException"
  | .throttling => "ThrottlingException"
  | .other msg => msg

/-- Modelled from the spec: the constant `errCodeThrottlingException`
(declaration missing from `src/`), the AWS error code of a throttling
failure. -/
def errCodeThrottlingException : String := "ThrottlingException"

/-- Modelled from the spec: the helper `isErrorCode` (definition missing
from `src/`), which tests whether a remote error has the given AWS error
code. -/
def isErrorCode (e : AwsErr) (code : String) : Bool :=
  e.code == code

/-- Modelled from the spec: the helper `shouldRetry` (definition missing
from `src/`).  Per the spec's failure policy (section 4.3), Throttled
and the two sequencing failures are recoverable and resubmitted, while
any other failure is terminal (dropped and reported). -/
def shouldRetry : AwsErr → Bool
  | .invalidSequenceToken _ => true
  | .dataAlreadyAccepted _ => true
  | .throttling => true
  | .other _ => false

/-- The response payload of a successful `PutLogEvents` call: the token
the stream must present on its next call. -/
structure PutLogEventsOutput where
  nextSequenceToken : Option String
deriving DecidableEq, Repr

/-- The request of a `PutLogEvents` call as `logStream.write` builds it
(cwlogger.go 285-290). -/
structure PutLogEventsInput where
  logGroupName : String
  logStreamName : String
  logEvents : List InputLogEvent
  sequenceToken : Option String
deriving DecidableEq, Repr

/-- The control-flow outcome of `logStream.write` (cwlogger.go 282-320):
the Go function either returns `nil`, returns the remote error to its
caller, or panics (line 311, `panic("unknown error" + err.Error())`),
in which case it never returns. -/
inductive WriteResult where
  | ok
  | errResult (e : AwsErr)
  | panicked (msg : String)
deriving DecidableEq, Repr

/-- The mutable state of a `logStream` (cwlogger.go 265-269): its name
and the sequence token to present on the next `PutLogEvents` call.  (The
`logger` back pointer carries no per-stream state.) -/
structure logStream where
  name : String
  sequenceToken : Option String
deriving DecidableEq, Repr

/-- The `PutLogEventsInput` that `logStream.write` sends for batch `b`
(cwlogger.go 285-290): it presents the stream's currently held sequence
token. -/
def logStream.putLogEventsInput (ls : logStream) (groupName : String)
    (b : List InputLogEvent) : PutLogEventsInput :=
  { logGroupName := groupName
    logStreamName := ls.name
    logEvents := b
    sequenceToken := ls.sequenceToken }

/-- `logStream.write` (cwlogger.go 282-320) as a function of the stream
state and the remote response `resp` to the `PutLogEvents` call it
issues for batch `b`.  Returns the updated stream (the assignment to
`ls.sequenceToken` is the only mutation) together with the control-flow
outcome:
on success the returned `NextSequenceToken` is adopted; on an
`InvalidSequenceTokenException` or `DataAlreadyAcceptedException` the
service-supplied `ExpectedSequenceToken` is adopted when non-nil and the
error is returned; on any other error the function panics. -/
def logStream.write (ls : logStream) (b : List InputLogEvent)
    (resp : Except AwsErr PutLogEventsOutput) : logStream × WriteResult :=
  match resp with
  | .error e =>
    match e with
    | .invalidSequenceToken expected =>
      match expected with
      | some t => ({ ls with sequenceToken := some t }, .errResult e)
      | none => (ls, .errResult e)
    | .dataAlreadyAccepted expected =>
      match expected with
      | some t => ({ ls with sequenceToken := some t }, .errResult e)
      | none => (ls, .errResult e)
    | e => (ls, .panicked ("unknown error" ++ e.code))
  | .ok out => ({ ls with sequenceToken := out.nextSequenceToken }, .ok)

/-- The `writeError` record (cwlogger.go 162-166) sent on the pool's
`errors` channel: the failed batch, the stream that reported the
failure, and the returned error. -/
structure writeError where
  batch : List InputLogEvent
  stream : logStream
  err : AwsErr
deriving DecidableEq, Repr

/-- The state of the `logStreams` pool (cwlogger.go 168-175) together
with the goroutine-local data the claims concern: `pfx` is the owning
logger's session prefix (Go field `prefix`, cwlogger.go 45); `streams`
is the growable stream list; `writesQ` holds the batches pending on the
`writes` channel (the generic dispatch path); `wgCount` is the counter
of the `sync.WaitGroup` `ls.wg` — the pool's in-flight count; `i` is
the round-robin cursor local to `logStreams.coordinator`
(cwlogger.go 234). -/
structure logStreamsState where
  pfx : String
  streams : List logStream
  writesQ : List (List InputLogEvent)
  wgCount : Int
  i : Nat
deriving DecidableEq, Repr

/-- The name `logStreams.new` gives the stream it creates
(cwlogger.go 190): the session prefix, a dot, and the decimal rendering
(`strconv.Itoa`) of the number of streams existing at its creation. -/
def newStreamName (st : logStreamsState) : String :=
  st.pfx ++ "." ++ Nat.repr st.streams.length

/-- `logStreams.new` (cwlogger.go 189-206) as a function of the remote
outcome `createRes` of the `stream.create()` call (`none` means the
remote `CreateLogStream` succeeded).  On failure the error is returned
and the pool is unchanged; on success the new stream, with no sequence
token yet, is appended to the pool. -/
def logStreams.new (st : logStreamsState) (createRes : Option AwsErr) :
    logStreamsState × Option AwsErr :=
  match createRes with
  | some e => (st, some e)
  | none =>
    ({ st with streams := st.streams ++ [{ name := newStreamName st, sequenceToken := none }] },
      none)

/-- `logStreams.write` (cwlogger.go 208-213): `ls.wg.Add(1)`, then the
batch is sent (from a fresh goroutine) to the `writes` channel. -/
def logStreams.write (st : logStreamsState) (b : List InputLogEvent) :
    logStreamsState :=
  { st with wgCount := st.wgCount + 1, writesQ := st.writesQ ++ [b] }

/-- One round of `logStreams.coordinator`'s dispatch case
(cwlogger.go 237-240): take the next batch from the `writes` channel,
advance the round-robin cursor by one modulo the current stream count,
and hand the batch to the chosen stream's writer.  Returns the updated
state and the chosen index, stream, and batch (`none` when no batch is
pending or the pool is empty). -/
def logStreams.dispatch (st : logStreamsState) :
    logStreamsState × Option (Nat × logStream × List InputLogEvent) :=
  match st.writesQ with
  | [] => (st, none)
  | b :: rest =>
    let j := (st.i + 1) % st.streams.length
    match st.streams[j]? with
    | some s => ({ st with writesQ := rest, i := j }, some (j, s, b))
    | none => ({ st with writesQ := rest, i := j }, none)

/-- `logStreams.handle` (cwlogger.go 247-259) as a function of the
remote outcome `createRes` used if throttling recovery creates a new
stream.  Returns the updated pool state together with the list of
errors passed to the caller-supplied error reporter.  A throttling error
first grows the pool via `logStreams.new` (its return value is
discarded, cwlogger.go 249); a retryable error re-enters the batch
through the `writes` channel — the same generic round-robin path as
fresh batches; a non-retryable error decrements the in-flight counter
(`ls.wg.Done()`) and is reported. -/
def logStreams.handle (st : logStreamsState) (we : writeError)
    (createRes : Option AwsErr) : logStreamsState × List AwsErr :=
  let st1 := if isErrorCode we.err errCodeThrottlingException then
    (logStreams.new st createRes).1 else st
  if shouldRetry we.err then
    ({ st1 with writesQ := st1.writesQ ++ [we.batch] }, [])
  else
    ({ st1 with wgCount := st1.wgCount - 1 }, [we.err])

/-- The pool's bookkeeping for one completed write attempt of batch `b`
on `stream`, as observed by `logStreams.writer` (cwlogger.go 215-231):
on a `nil` return the in-flight counter is decremented
(`ls.wg.Done()`, line 228); on a returned error a `writeError` is sent
to the `errors` channel, which the coordinator hands to
`logStreams.handle` (cwlogger.go 241-242).  If `logStream.write`
panicked it never returned, so no bookkeeping happens: the whole
process crashes (`none`). -/
def attemptStep (st : logStreamsState) (stream : logStream)
    (b : List InputLogEvent) (r : WriteResult) (createRes : Option AwsErr) :
    Option (logStreamsState × List AwsErr) :=
  match r with
  | .ok => some ({ st with wgCount := st.wgCount - 1 }, [])
  | .errResult e => some (logStreams.handle st { batch := b, stream := stream, err := e } createRes)
  | .panicked _ => none

/-- Whether a write attempt outcome is terminal for its batch: a
successful return, or a returned error the pool will not retry. -/
def terminalOutcome : WriteResult → Bool
  | .ok => true
  | .errResult e => !shouldRetry e
  | .panicked _ => false

/-- Whether a write attempt outcome is a returned, retryable failure. -/
def retryableOutcome : WriteResult → Bool
  | .errResult e => shouldRetry e
  | _ => false

/-- The pool bookkeeping of a whole sequence of write attempts for one
batch, each given by the outcome `logStream.write` produced for it and
the stream-creation outcome used if that attempt triggers throttling
recovery.  Folds `attemptStep`; a panicking attempt aborts the run. -/
def runAttempts (st : logStreamsState) (stream : logStream)
    (b : List InputLogEvent) :
    List (WriteResult × Option AwsErr) → Option logStreamsState
  | [] => some st
  | (r, cr) :: rest =>
    match attemptStep st stream b r cr with
    | none => none
    | some p => runAttempts p.1 stream b rest

/-- The outcome of the remote `CreateLogGroup` call as
`Logger.createIfNotExists` distinguishes it (cwlogger.go 139-148):
success, a `ResourceAlreadyExistsException` (treated as success, with an
early return), or any other failure. -/
inductive GroupCreateResult where
  | ok
  | alreadyExists
  | failed (msg : String)
deriving DecidableEq, Repr

/-- A remote call issued during bootstrap, recorded for the analysis of
which calls `Logger.createIfNotExists` makes. -/
inductive ApiCall where
  | createLogGroup (group : String)
  | putRetentionPolicy (group : String) (days : Int)
deriving DecidableEq, Repr

/-- Go's conversion `int32(x)` of a 64-bit `int`, used at
cwlogger.go 153 for `RetentionInDays`: two's-complement wraparound into
the range from `-2^31` to `2^31 - 1`. -/
def int32wrap (x : Int) : Int :=
  (x + 2 ^ 31) % 2 ^ 32 - 2 ^ 31

/-- `Logger.createIfNotExists` (cwlogger.go 136-160) as a function of
the configured retention (Go `int` field `lg.retention`) and the remote
outcomes.  Returns the error result (`none` is a `nil` error) together
with the remote calls issued, in order: `CreateLogGroup` is always
called; when it reports that the group already exists the function
returns `nil` at once; only when it newly created the group and a
non-zero retention is configured is `PutRetentionPolicy` called, with
`int32(lg.retention)` days. -/
def Logger.createIfNotExists (groupName : String) (retention : Int)
    (createRes : GroupCreateResult) (retentionRes : Option String) :
    Option String × List ApiCall :=
  match createRes with
  | .alreadyExists => (none, [.createLogGroup groupName])
  | .failed msg =>
    (some ("Unable to create log group \x22" ++ groupName ++ "\x22: " ++ msg),
      [.createLogGroup groupName])
  | .ok =>
    if retention ≠ 0 then
      match retentionRes with
      | some msg =>
        (some ("Unable to set log group retention: " ++ msg),
          [.createLogGroup groupName, .putRetentionPolicy groupName (int32wrap retention)])
      | none =>
        (none, [.createLogGroup groupName, .putRetentionPolicy groupName (int32wrap retention)])
    else
      (none, [.createLogGroup groupName])

/-- `Logger.Log` (cwlogger.go 105-114): given the events already sent to
the batcher's input and the call's arguments — `tUnixNano` is
`t.UnixNano()` — it appends exactly one event, whose message is the
argument string unchanged and whose timestamp is
`t.UnixNano() / int64(time.Millisecond)`; Go's `int64` division
truncates toward zero, which is `Int.tdiv`.  The second component lists
the remote calls `Log` makes before returning: none. -/
def Logger.Log (batcherInput : List InputLogEvent) (tUnixNano : Int)
    (s : String) : List InputLogEvent × List ApiCall :=
  (batcherInput ++ [{ message := s, timestamp := Int.tdiv tUnixNano 1000000 }], [])

/-- The lowercase digit table of Go's `encoding/hex` (the package
constant `hextable = "0123456789abcdef"`). -/
def hextable : String := "0123456789abcdef"

/-- Go `hex.EncodeToString` of a byte slice (bytes are naturals below
256): each byte contributes two lowercase hex digits, high nibble
first. -/
def hexEncodeToString (bytes : List Nat) : String :=
  ⟨bytes.flatMap fun byte => [hextable.data.getD (byte / 16) '*', hextable.data.getD (byte % 16) '*']⟩

/-- `randomHex` (cwlogger.go 322-326), with the random bytes produced by
`rand.Read` into the length-`n` slice passed explicitly: the hex
encoding of those bytes.  `Logger.New` calls it with `n = 32` to
generate the session prefix (cwlogger.go 79). -/
def randomHex (bytes : List Nat) : String :=
  hexEncodeToString bytes

/-!
The drain pipeline for claim C4.  The counters below abstract the data
flowing through `Logger.Log`, the batcher, `Logger.worker` and the
stream pool to what `Logger.Close` (cwlogger.go 122-127) synchronizes
on.  The batcher itself is not under `src/`; its intake/flush behavior
is modelled from the spec (sections 4.1 and 5).
-/

/-- The synchronization-relevant state of the whole pipeline:
`logWg` is the counter of `lg.wg` (Log calls accepted whose event has
not yet been sent to the batcher input, cwlogger.go 106-112); `inputQ`
counts events sent to `batcher.input` and not yet consumed; `openCount`
counts events in the batcher's open batch (modelled from the spec);
`outputQ` counts sealed batches emitted on `batcher.output` and not yet
taken by `Logger.worker`; `outputClosed` records that `batcher.flush`
has completed, closing the output; `doneSent` records that the worker's
loop ended and it sent on `lg.done` (cwlogger.go 129-134); `streamsWg`
is the counter of the pool's `ls.wg` (the in-flight count); and
`closePhase` counts how many of `Close`'s four steps
(cwlogger.go 123-126) have completed. -/
structure PipelineState where
  logWg : Nat
  inputQ : Nat
  openCount : Nat
  outputQ : Nat
  outputClosed : Bool
  doneSent : Bool
  streamsWg : Nat
  closePhase : Nat
deriving DecidableEq, Repr

/-- The pipeline before any activity: all counters zero, no flags set,
`Close` not yet started. -/
def initPipeline : PipelineState :=
  { logWg := 0, inputQ := 0, openCount := 0, outputQ := 0,
    outputClosed := false, doneSent := false, streamsWg := 0, closePhase := 0 }

/-- One atomic step of the pipeline.  The first seven constructors are
the concurrent activity of `Log` callers, the batcher, the worker and
the stream pool; the last four are the four sequential steps of
`Logger.Close` (cwlogger.go 123-126), each of which can only run after
the previous one completed and blocks until its wait condition holds. -/
inductive PipelineStep : PipelineState → PipelineState → Prop where
  | logCall (s : PipelineState) (h : s.closePhase = 0) :
      PipelineStep s { s with logWg := s.logWg + 1 }
  | enterBatcher (s : PipelineState) (h : 0 < s.logWg) :
      PipelineStep s { s with logWg := s.logWg - 1, inputQ := s.inputQ + 1 }
  | consumeEvent (s : PipelineState) (h : 0 < s.inputQ) (h2 : s.outputClosed = false) :
      PipelineStep s { s with inputQ := s.inputQ - 1, openCount := s.openCount + 1 }
  | sealBatch (s : PipelineState) (h : 0 < s.openCount) (h2 : s.outputClosed = false) :
      PipelineStep s { s with openCount := 0, outputQ := s.outputQ + 1 }
  | forwardBatch (s : PipelineState) (h : 0 < s.outputQ) :
      PipelineStep s { s with outputQ := s.outputQ - 1, streamsWg := s.streamsWg + 1 }
  | workerDone (s : PipelineState) (h : s.outputQ = 0) (h2 : s.outputClosed = true)
      (h3 : s.doneSent = false) :
      PipelineStep s { s with doneSent := true }
  | streamTerminal (s : PipelineState) (h : 0 < s.streamsWg) :
      PipelineStep s { s with streamsWg := s.streamsWg - 1 }
  | closeWaitLogWg (s : PipelineState) (h : s.closePhase = 0) (h2 : s.logWg = 0) :
      PipelineStep s { s with closePhase := 1 }
  | closeFlushBatcher (s : PipelineState) (h : s.closePhase = 1) (h2 : s.inputQ = 0) :
      PipelineStep s
        { s with
          closePhase := 2
          outputClosed := true
          openCount := 0
          outputQ := s.outputQ + (if s.openCount = 0 then 0 else 1) }
  | closeWaitDone (s : PipelineState) (h : s.closePhase = 2) (h2 : s.doneSent = true) :
      PipelineStep s { s with closePhase := 3 }
  | closeWaitStreams (s : PipelineState) (h : s.closePhase = 3) (h2 : s.streamsWg = 0) :
      PipelineStep s { s with closePhase := 4 }

/-- A pipeline state reachable from the initial state. -/
def PipelineReachable (s : PipelineState) : Prop :=
  Relation.ReflTransGen PipelineStep initPipeline s

/-- The inductive invariant of the pipeline: each completed step of
`Logger.Close` pins the condition it waited for, and those conditions
persist. -/
def PipelineInv (s : PipelineState) : Prop :=
  (1 ≤ s.closePhase → s.logWg = 0)
  ∧ (s.outputClosed = true → s.inputQ = 0 ∧ s.openCount = 0 ∧ 2 ≤ s.closePhase)
  ∧ (2 ≤ s.closePhase → s.outputClosed = true)
  ∧ (s.doneSent = true → s.outputQ = 0 ∧ s.outputClosed = true)
  ∧ (3 ≤ s.closePhase → s.doneSent = true)
  ∧ (4 ≤ s.closePhase → s.streamsWg = 0)

/-- The pool state is unchanged by `logStreams.new` except possibly for
the stream list; in particular the in-flight counter is untouched. -/
theorem new_wgCount (st : logStreamsState) (cr : Option AwsErr) :
    ((logStreams.new st cr).1).wgCount = st.wgCount := by
  cases cr <;> rfl

/-- The in-flight counter after `logStreams.handle`: unchanged when the
error is retryable, decremented by one when the batch is dropped. -/
theorem handle_wgCount (st : logStreamsState) (we : writeError) (cr : Option AwsErr) :
    ((logStreams.handle st we cr).1).wgCount
      = if shouldRetry we.err then st.wgCount else st.wgCount - 1 := by
  by_cases hti : isErrorCode we.err errCodeThrottlingException = true <;>
    by_cases hr : shouldRetry we.err = true <;>
      simp [logStreams.handle, hti, hr, new_wgCount]

/-- C1: the claim says a batch whose submission fails with an error that
is neither an invalid-sequence-token nor a data-already-accepted failure
is dropped with the in-flight count decremented and the error hook
invoked, without crashing the host process.  The code does the opposite:
`logStream.write` panics on any such error (cwlogger.go 311), shown here
by evaluating it on a generic remote failure; the error never reaches
`logStreams.handle`, so neither the decrement nor the hook call
happens. -/
theorem c1_other_error_panics :
    logStream.write { name := "p.0", sequenceToken := some "tok" }
        [{ message := "m", timestamp := 0 }] (.error (.other "InternalFailure"))
      = ({ name := "p.0", sequenceToken := some "tok" },
          .panicked "unknown errorInternalFailure") := by
  rfl

/-- C2: the claim says a Throttled failure grows the pool by one stream
and resubmits the batch.  The code never reaches that recovery:
`logStream.write` matches only the two sequencing exceptions and panics
on everything else, including a `ThrottlingException`
(cwlogger.go 296-312), shown here by evaluation; the pool-growth branch
of `logStreams.handle` (cwlogger.go 248-250) is therefore
unreachable. -/
theorem c2_throttling_panics :
    logStream.write { name := "p.0", sequenceToken := some "tok" }
        [{ message := "m", timestamp := 0 }] (.error .throttling)
      = ({ name := "p.0", sequenceToken := some "tok" },
          .panicked "unknown errorThrottlingException") := by
  rfl

/-- C5: after a submission attempt the stream's stored sequence token is
the `NextSequenceToken` of the remote response on success, and the
service-supplied expected token `t` on an invalid-sequence-token failure
carrying one; the stream's next `PutLogEvents` request then presents
`t`. -/
theorem c5_sequence_token_update (ls : logStream) (b b2 : List InputLogEvent)
    (g : String) (next : Option String) (t : String) :
    ((logStream.write ls b (.ok { nextSequenceToken := next })).1).sequenceToken = next
    ∧ ((logStream.write ls b (.error (.invalidSequenceToken (some t)))).1).sequenceToken
        = some t
    ∧ (((logStream.write ls b (.error (.invalidSequenceToken (some t)))).1).putLogEventsInput
          g b2).sequenceToken = some t := by
  exact ⟨rfl, rfl, rfl⟩

/-- C10: `Logger.Log` enqueues exactly one event, whose message is the
argument string unchanged and whose timestamp is `t.UnixNano()` divided
by one million with truncation toward zero, and it issues no remote call
before returning. -/
theorem c10_log_appends_one_event (q : List InputLogEvent) (tUnixNano : Int)
    (s : String) :
    Logger.Log q tUnixNano s
      = (q ++ [{ message := s, timestamp := Int.tdiv tUnixNano 1000000 }], []) := by
  rfl

/-- C7, counterexample: with a non-zero retention of 5 days configured
but the log group already existing, the bootstrap returns early
(cwlogger.go 144-146) and the remote calls it makes are exactly one
`CreateLogGroup` — no `PutRetentionPolicy` — contradicting the claim
that every construction with non-zero retention applies the retention
policy. -/
theorem c7_counterexample :
    (5 : Int) ≠ 0
    ∧ Logger.createIfNotExists "group" 5 .alreadyExists none
        = (none, [.createLogGroup "group"]) := by
  exact ⟨by decide, rfl⟩

/-- C7, amended: `PutRetentionPolicy` is called exactly when a non-zero
retention is configured and `CreateLogGroup` newly created the group
(no already-exists report and no failure), and then with
`int32(retention)` days; in particular it is never called when the
configured retention is zero. -/
theorem c7_retention_policy_iff (g : String) (retention : Int)
    (createRes : GroupCreateResult) (retentionRes : Option String) (d : Int) :
    ApiCall.putRetentionPolicy g d
        ∈ (Logger.createIfNotExists g retention createRes retentionRes).2
      ↔ retention ≠ 0 ∧ createRes = .ok ∧ d = int32wrap retention := by
  cases createRes with
  | alreadyExists => simp [Logger.createIfNotExists]
  | failed msg => simp [Logger.createIfNotExists]
  | ok =>
    by_cases hr : retention = 0
    · simp [Logger.createIfNotExists, hr]
    · cases retentionRes <;> simp [Logger.createIfNotExists, hr, eq_comm]

/-- C3, counterexample: a pool of two streams, with the round-robin
cursor at 1 after dispatching a batch to stream `p.1`; stream `p.1`
reports an invalid-sequence-token failure for that batch.
`logStreams.handle` resubmits the batch through the generic `writes`
channel, and the coordinator then dispatches it round-robin to stream
`p.0` — a different stream from the one that reported the failure —
contradicting the claim that the batch is resubmitted specifically to
the same stream. -/
theorem c3_counterexample :
    (logStreams.dispatch
        (logStreams.handle
          { pfx := "p",
            streams := [{ name := "p.0", sequenceToken := some "t0" },
              { name := "p.1", sequenceToken := some "T" }],
            writesQ := [], wgCount := 1, i := 1 }
          { batch := [{ message := "m", timestamp := 0 }],
            stream := { name := "p.1", sequenceToken := some "T" },
            err := .invalidSequenceToken (some "T") }
          none).1).2
      = some (0, { name := "p.0", sequenceToken := some "t0" },
          [{ message := "m", timestamp := 0 }])
    ∧ ({ name := "p.0", sequenceToken := some "t0" } : logStream)
        ≠ { name := "p.1", sequenceToken := some "T" } := by
  exact ⟨rfl, by decide⟩

/-- C3, amended: after an InvalidToken or AlreadyAccepted failure the
failing stream has adopted the service-supplied expected token, and the
batch is resubmitted through the generic round-robin write path — the
`writes` channel, with no error reported and no counter change — so the
coordinator assigns it to the stream at the next round-robin index,
which may be any stream of the pool, not specifically the one that
reported the failure. -/
theorem c3_retry_via_generic_path (ls : logStream) (b : List InputLogEvent)
    (t : String) (exp : Option String) (st : logStreamsState) (rep : logStream)
    (cr : Option AwsErr) :
    ((logStream.write ls b (.error (.invalidSequenceToken (some t)))).1).sequenceToken
        = some t
    ∧ logStreams.handle st { batch := b, stream := rep, err := .invalidSequenceToken exp } cr
        = ({ st with writesQ := st.writesQ ++ [b] }, [])
    ∧ logStreams.handle st { batch := b, stream := rep, err := .dataAlreadyAccepted exp } cr
        = ({ st with writesQ := st.writesQ ++ [b] }, [])
    ∧ (st.writesQ = [] → ∀ hne : st.streams ≠ [],
        (logStreams.dispatch { st with writesQ := st.writesQ ++ [b] }).2
          = some ((st.i + 1) % st.streams.length,
              st.streams.get
                ⟨(st.i + 1) % st.streams.length,
                  Nat.mod_lt _ (List.length_pos.mpr hne)⟩,
              b)) := by
  refine ⟨rfl, rfl, rfl, ?_⟩
  intro hq hne
  have hlt : (st.i + 1) % st.streams.length < st.streams.length :=
    Nat.mod_lt _ (List.length_pos.mpr hne)
  simp [logStreams.dispatch, hq, List.getElem?_eq_getElem hlt]

/-- C3, witness: the amended theorem applied at the concrete
two-stream pool of the counterexample. -/
theorem c3_retry_witness :
    (logStreams.dispatch
        { pfx := "p",
          streams := [{ name := "p.0", sequenceToken := some "t0" },
            { name := "p.1", sequenceToken := some "T" }],
          writesQ := [] ++ [[{ message := "m", timestamp := 0 }]],
          wgCount := 1, i := 1 }).2
      = some (0, { name := "p.0", sequenceToken := some "t0" },
          [{ message := "m", timestamp := 0 }]) := by
  exact
    (c3_retry_via_generic_path { name := "p.1", sequenceToken := some "T" }
        [{ message := "m", timestamp := 0 }] "T" (some "T")
        { pfx := "p",
          streams := [{ name := "p.0", sequenceToken := some "t0" },
            { name := "p.1", sequenceToken := some "T" }],
          writesQ := [], wgCount := 1, i := 1 }
        { name := "p.1", sequenceToken := some "T" } none).2.2.2
      rfl (by decide)

/-- C8: during throttle recovery, when creating the brand-new stream
fails remotely, `logStreams.handle` discards the failure
(cwlogger.go 249 ignores the return of `ls.new()`): the pool's stream
list is unchanged, nothing is reported to the error hook, the in-flight
counter is untouched, and the throttled batch still re-enters the
generic `writes` path, from which the coordinator dispatches it to one
of the existing streams. -/
theorem c8_throttle_create_failure_discarded (st : logStreamsState)
    (b : List InputLogEvent) (rep : logStream) (e : AwsErr) :
    logStreams.handle st { batch := b, stream := rep, err := .throttling } (some e)
        = ({ st with writesQ := st.writesQ ++ [b] }, [])
    ∧ (st.writesQ = [] → ∀ hne : st.streams ≠ [],
        ∃ j s,
          (logStreams.dispatch
              ((logStreams.handle st { batch := b, stream := rep, err := .throttling }
                (some e)).1)).2
            = some (j, s, b) ∧ s ∈ st.streams) := by
  refine ⟨rfl, ?_⟩
  intro hq hne
  have hlt : (st.i + 1) % st.streams.length < st.streams.length :=
    Nat.mod_lt _ (List.length_pos.mpr hne)
  refine ⟨(st.i + 1) % st.streams.length, st.streams[(st.i + 1) % st.streams.length], ?_, ?_⟩
  · simp [logStreams.handle, logStreams.new, isErrorCode, errCodeThrottlingException,
      shouldRetry, logStreams.dispatch, hq, List.getElem?_eq_getElem hlt]
  · exact List.getElem_mem hlt

/-- C8, witness: the theorem applied at a concrete one-stream pool with
a concrete creation failure. -/
theorem c8_witness :
    ∃ j s,
      (logStreams.dispatch
          ((logStreams.handle
            { pfx := "p", streams := [{ name := "p.0", sequenceToken := none }],
              writesQ := [], wgCount := 1, i := 0 }
            { batch := [{ message := "m", timestamp := 0 }],
              stream := { name := "p.0", sequenceToken := none },
              err := .throttling }
            (some (.other "AccessDenied"))).1)).2
        = some (j, s, [{ message := "m", timestamp := 0 }])
      ∧ s ∈ ([{ name := "p.0", sequenceToken := none }] : List logStream) := by
  exact
    (c8_throttle_create_failure_discarded
        { pfx := "p", streams := [{ name := "p.0", sequenceToken := none }],
          writesQ := [], wgCount := 1, i := 0 }
        [{ message := "m", timestamp := 0 }]
        { name := "p.0", sequenceToken := none }
        (.other "AccessDenied")).2
      rfl (by decide)

/-- Running a sequence of attempts whose non-final outcomes are all
retryable returned failures and whose final outcome is terminal
completes (no attempt panicked) and leaves the in-flight counter one
below its starting value: the single terminal attempt decrements it
once, and no retry touches it. -/
theorem runAttempts_terminal_wgCount :
    ∀ (attempts : List (WriteResult × Option AwsErr)) (st : logStreamsState)
      (stream : logStream) (b : List InputLogEvent),
      attempts ≠ [] →
      (∀ p ∈ attempts.dropLast, retryableOutcome p.1 = true) →
      (∀ p ∈ attempts.getLast?, terminalOutcome p.1 = true) →
      ∃ stFin, runAttempts st stream b attempts = some stFin
        ∧ stFin.wgCount = st.wgCount - 1 := by
  intro attempts
  induction attempts with
  | nil => intro st stream b hne; exact absurd rfl hne
  | cons hd tl ih =>
    intro st stream b _ hdrop hlast
    obtain ⟨r, cr⟩ := hd
    cases tl with
    | nil =>
      have hterm : terminalOutcome r = true := hlast (r, cr) rfl
      cases r with
      | ok =>
        exact ⟨{ st with wgCount := st.wgCount - 1 }, rfl, rfl⟩
      | errResult e =>
        have hnr : shouldRetry e = false := by
          simpa [terminalOutcome] using hterm
        refine ⟨(logStreams.handle st { batch := b, stream := stream, err := e } cr).1,
          rfl, ?_⟩
        rw [handle_wgCount, hnr]
        simp
      | panicked msg => simp [terminalOutcome] at hterm
    | cons q tl2 =>
      have hretry : retryableOutcome r = true := by
        have : (r, cr) ∈ ((r, cr) :: q :: tl2).dropLast := by
          simp [List.dropLast]
        exact hdrop (r, cr) this
      have hdrop2 : ∀ p ∈ (q :: tl2).dropLast, retryableOutcome p.1 = true := by
        intro p hp
        refine hdrop p ?_
        have hdl : ((r, cr) :: q :: tl2).dropLast = (r, cr) :: (q :: tl2).dropLast := by
          simp [List.dropLast]
        rw [hdl]
        exact List.mem_cons_of_mem _ hp
      have hlast2 : ∀ p ∈ (q :: tl2).getLast?, terminalOutcome p.1 = true := by
        intro p hp
        refine hlast p ?_
        rw [List.getLast?_cons_cons]
        exact hp
      cases r with
      | ok => simp [retryableOutcome] at hretry
      | errResult e =>
        have hre : shouldRetry e = true := by
          simpa [retryableOutcome] using hretry
        obtain ⟨stFin, hrun, hwg⟩ :=
          ih (logStreams.handle st { batch := b, stream := stream, err := e } cr).1
            stream b (by simp) hdrop2 hlast2
        refine ⟨stFin, ?_, ?_⟩
        · simpa [runAttempts, attemptStep] using hrun
        · rw [hwg, handle_wgCount, hre]
          simp
      | panicked msg => simp [retryableOutcome] at hretry

/-- C6: the in-flight counter is incremented exactly once when a batch
is handed to `logStreams.write`; `logStreams.handle` leaves it
unchanged when it resubmits a batch after a recoverable failure; and
over a whole batch lifecycle — the handoff followed by any number of
retryable returned failures and one terminal outcome — the counter
returns exactly to its starting value, the terminal attempt having
decremented it exactly once. -/
theorem c6_inflight_counter_protocol (st : logStreamsState) (stream : logStream)
    (b : List InputLogEvent) (attempts : List (WriteResult × Option AwsErr)) :
    (logStreams.write st b).wgCount = st.wgCount + 1
    ∧ (∀ (we : writeError) (cr : Option AwsErr), shouldRetry we.err = true →
        ((logStreams.handle st we cr).1).wgCount = st.wgCount)
    ∧ (attempts ≠ [] →
        (∀ p ∈ attempts.dropLast, retryableOutcome p.1 = true) →
        (∀ p ∈ attempts.getLast?, terminalOutcome p.1 = true) →
        ∃ stFin, runAttempts (logStreams.write st b) stream b attempts = some stFin
          ∧ stFin.wgCount = st.wgCount) := by
  refine ⟨rfl, ?_, ?_⟩
  · intro we cr hre
    rw [handle_wgCount, hre]
    simp
  · intro hne hdrop hlast
    obtain ⟨stFin, hrun, hwg⟩ :=
      runAttempts_terminal_wgCount attempts (logStreams.write st b) stream b hne hdrop hlast
    refine ⟨stFin, hrun, ?_⟩
    rw [hwg]
    show (logStreams.write st b).wgCount - 1 = st.wgCount
    simp [logStreams.write]

/-- C6, witness: the protocol applied to a batch that succeeds on its
second attempt, the first having returned an invalid-sequence-token
failure. -/
theorem c6_witness :
    ([(WriteResult.errResult (.invalidSequenceToken (some "T")), (none : Option AwsErr)),
        (WriteResult.ok, (none : Option AwsErr))] ≠ [])
    ∧ ∃ stFin,
        runAttempts
          (logStreams.write
            { pfx := "p", streams := [{ name := "p.0", sequenceToken := none }],
              writesQ := [], wgCount := 0, i := 0 }
            [{ message := "m", timestamp := 0 }])
          { name := "p.0", sequenceToken := none }
          [{ message := "m", timestamp := 0 }]
          [(WriteResult.errResult (.invalidSequenceToken (some "T")), (none : Option AwsErr)),
            (WriteResult.ok, (none : Option AwsErr))]
          = some stFin
        ∧ stFin.wgCount = 0 := by
  refine ⟨by decide, ?_⟩
  exact
    (c6_inflight_counter_protocol
        { pfx := "p", streams := [{ name := "p.0", sequenceToken := none }],
          writesQ := [], wgCount := 0, i := 0 }
        { name := "p.0", sequenceToken := none }
        [{ message := "m", timestamp := 0 }]
        [(WriteResult.errResult (.invalidSequenceToken (some "T")), (none : Option AwsErr)),
          (WriteResult.ok, (none : Option AwsErr))]).2.2
      (by decide) (by decide)
      (by intro p hp; simp at hp; subst hp; rfl)

/-- Core's fuel-based decimal digit printer agrees with the digit list
of `Nat.digits` (mapped to characters, most significant first) whenever
the fuel exceeds the number printed. -/
theorem toDigitsCore_eq_digits :
    ∀ (fuel n : Nat) (acc : List Char), 0 < n → n < fuel →
      Nat.toDigitsCore 10 fuel n acc
        = ((Nat.digits 10 n).map Nat.digitChar).reverse ++ acc := by
  intro fuel
  induction fuel with
  | zero => intro n acc hn hf; omega
  | succ f ih =>
    intro n acc hn hf
    rw [Nat.digits_def' (b := 10) (by norm_num) hn]
    by_cases h0 : n / 10 = 0
    · simp [Nat.toDigitsCore, h0, Nat.digits_zero]
    · have hn0 : 0 < n / 10 := Nat.pos_of_ne_zero h0
      have hlt : n / 10 < f := by
        have h1 : n / 10 < n := Nat.div_lt_self hn (by norm_num)
        omega
      have hstep : Nat.toDigitsCore 10 (f + 1) n acc
          = Nat.toDigitsCore 10 f (n / 10) (Nat.digitChar (n % 10) :: acc) := by
        simp [Nat.toDigitsCore, h0]
      rw [hstep, ih (n / 10) (Nat.digitChar (n % 10) :: acc) hn0 hlt]
      simp [List.reverse_cons, List.append_assoc]

/-- `Nat.toDigits 10` of a positive number is the reversed
character-mapped `Nat.digits 10` list. -/
theorem toDigits10_eq (n : Nat) (hn : 0 < n) :
    Nat.toDigits 10 n = ((Nat.digits 10 n).map Nat.digitChar).reverse := by
  have h := toDigitsCore_eq_digits (n + 1) n [] hn (Nat.lt_succ_self n)
  simpa [Nat.toDigits] using h

/-- `Nat.digitChar` is injective below 10. -/
theorem digitChar_inj_lt :
    ∀ a, a < 10 → ∀ b, b < 10 → Nat.digitChar a = Nat.digitChar b → a = b := by
  decide

/-- Mapping `Nat.digitChar` over lists of digits below 10 is
injective. -/
theorem map_digitChar_inj :
    ∀ (l1 l2 : List Nat), (∀ x ∈ l1, x < 10) → (∀ x ∈ l2, x < 10) →
      l1.map Nat.digitChar = l2.map Nat.digitChar → l1 = l2 := by
  intro l1
  induction l1 with
  | nil =>
    intro l2 _ _ h
    cases l2 with
    | nil => rfl
    | cons b t => simp at h
  | cons a t ih =>
    intro l2 h1 h2 h
    cases l2 with
    | nil => simp at h
    | cons b t2 =>
      simp only [List.map_cons, List.cons.injEq] at h
      have ha : a < 10 := h1 a (List.mem_cons_self _ _)
      have hb : b < 10 := h2 b (List.mem_cons_self _ _)
      have hab := digitChar_inj_lt a ha b hb h.1
      have ht := ih t2 (fun x hx => h1 x (List.mem_cons_of_mem _ hx))
        (fun x hx => h2 x (List.mem_cons_of_mem _ hx)) h.2
      rw [hab, ht]

/-- `Nat.toDigits 10` — hence `Nat.repr` and Go's `strconv.Itoa` — is
injective. -/
theorem toDigits10_inj (m n : Nat) (h : Nat.toDigits 10 m = Nat.toDigits 10 n) :
    m = n := by
  have hbound : ∀ k : Nat, ∀ x ∈ Nat.digits 10 k, x < 10 := by
    intro k x hx
    exact Nat.digits_lt_base (by norm_num) hx
  rcases Nat.eq_zero_or_pos m with hm | hm <;> rcases Nat.eq_zero_or_pos n with hn | hn
  · omega
  · exfalso
    subst hm
    rw [toDigits10_eq n hn] at h
    have h2 : (Nat.digits 10 n).map Nat.digitChar = ['0'] := by
      have h3 := congrArg List.reverse h
      simpa using h3.symm
    have h4 : Nat.digits 10 n = [0] := by
      refine map_digitChar_inj _ [0] (hbound n) (by simp) ?_
      simpa using h2
    have h5 := Nat.ofDigits_digits 10 n
    rw [h4] at h5
    simp [Nat.ofDigits] at h5
    omega
  · exfalso
    subst hn
    rw [toDigits10_eq m hm] at h
    have h2 : (Nat.digits 10 m).map Nat.digitChar = ['0'] := by
      have h3 := congrArg List.reverse h
      simpa using h3
    have h4 : Nat.digits 10 m = [0] := by
      refine map_digitChar_inj _ [0] (hbound m) (by simp) ?_
      simpa using h2
    have h5 := Nat.ofDigits_digits 10 m
    rw [h4] at h5
    simp [Nat.ofDigits] at h5
    omega
  · rw [toDigits10_eq m hm, toDigits10_eq n hn] at h
    have h2 := List.reverse_injective h
    exact Nat.digits.injective 10 (map_digitChar_inj _ _ (hbound m) (hbound n) h2)

/-- Two streams created by the same logger when the pool held different
numbers of streams get different names: the decimal suffix
distinguishes them. -/
theorem newStreamName_inj (st1 st2 : logStreamsState) (hp : st1.pfx = st2.pfx)
    (hne : st1.streams.length ≠ st2.streams.length) :
    newStreamName st1 ≠ newStreamName st2 := by
  intro heq
  apply hne
  unfold newStreamName at heq
  rw [hp] at heq
  have hd := congrArg String.data heq
  simp only [String.data_append, List.append_assoc] at hd
  have h1 := List.append_cancel_left hd
  have h2 := List.append_cancel_left h1
  exact toDigits10_inj _ _ h2

/-- The hex encoding of a byte list has twice as many characters as
there are bytes. -/
theorem hexEncodeToString_length (bytes : List Nat) :
    (hexEncodeToString bytes).length = 2 * bytes.length := by
  show (bytes.flatMap fun byte =>
      [hextable.data.getD (byte / 16) '*', hextable.data.getD (byte % 16) '*']).length
    = 2 * bytes.length
  induction bytes with
  | nil => rfl
  | cons b t ih =>
    simp only [List.flatMap_cons, List.length_append, List.length_cons,
      List.length_nil, List.length_cons] at ih ⊢
    omega

/-- Entries of the hex digit table looked up below index 16 are hex
digits. -/
theorem hextable_getD_mem : ∀ i, i < 16 → hextable.data.getD i '*' ∈ hextable.data := by
  decide

/-- Every character of the hex encoding of genuine bytes (below 256) is
a lowercase hex digit. -/
theorem hexEncodeToString_mem (bytes : List Nat) (hb : ∀ x ∈ bytes, x < 256) :
    ∀ c ∈ (hexEncodeToString bytes).data, c ∈ hextable.data := by
  intro c hc
  have hc2 : c ∈ bytes.flatMap fun byte =>
      [hextable.data.getD (byte / 16) '*', hextable.data.getD (byte % 16) '*'] := hc
  rw [List.mem_flatMap] at hc2
  obtain ⟨b, hbmem, hcb⟩ := hc2
  have hblt := hb b hbmem
  have h1 : b / 16 < 16 := by omega
  have h2 : b % 16 < 16 := by omega
  simp only [List.mem_cons, List.not_mem_nil, or_false] at hcb
  rcases hcb with h | h <;> subst h
  · exact hextable_getD_mem _ h1
  · exact hextable_getD_mem _ h2

/-- C9: the session prefix generated at construction — `randomHex` of
the 32 random bytes — is a 64-character string of hex digits, each
stream created by `logStreams.new` is named
prefix ++ "." ++ (decimal of the number of streams existing at its
creation), and two streams created with different existing-stream
counts therefore always have distinct names. -/
theorem c9_stream_names (entropy : List Nat) (h32 : entropy.length = 32)
    (hbytes : ∀ x ∈ entropy, x < 256) :
    (randomHex entropy).length = 64
    ∧ (∀ c ∈ (randomHex entropy).data, c ∈ hextable.data)
    ∧ (∀ st : logStreamsState, ((logStreams.new st none).1).streams
        = st.streams ++ [{ name := newStreamName st, sequenceToken := none }])
    ∧ (∀ st1 st2 : logStreamsState,
        st1.pfx = randomHex entropy → st2.pfx = randomHex entropy →
        st1.streams.length ≠ st2.streams.length →
        newStreamName st1 ≠ newStreamName st2) := by
  refine ⟨?_, ?_, ?_, ?_⟩
  · rw [randomHex, hexEncodeToString_length, h32]
  · exact hexEncodeToString_mem entropy hbytes
  · intro st; rfl
  · intro st1 st2 hp1 hp2 hne
    exact newStreamName_inj st1 st2 (hp1.trans hp2.symm) hne

/-- C9, witness: the theorem applied to a concrete all-zero entropy and
to two pool states holding zero and one stream respectively. -/
theorem c9_witness :
    (List.replicate 32 0).length = 32
    ∧ (∀ x ∈ List.replicate 32 (0 : Nat), x < 256)
    ∧ (randomHex (List.replicate 32 0)).length = 64
    ∧ newStreamName
          { pfx := randomHex (List.replicate 32 0)
            streams := []
            writesQ := []
            wgCount := 0
            i := 0 }
        ≠ newStreamName
          { pfx := randomHex (List.replicate 32 0)
            streams := [{ name := "s", sequenceToken := none }]
            writesQ := []
            wgCount := 0
            i := 0 } := by
  refine ⟨by decide, by decide, ?_, ?_⟩
  · exact (c9_stream_names (List.replicate 32 0) (by decide) (by decide)).1
  · exact (c9_stream_names (List.replicate 32 0) (by decide) (by decide)).2.2.2
      _ _ rfl rfl (by decide)

/-- The pipeline invariant holds initially. -/
theorem pipelineInv_init : PipelineInv initPipeline := by
  simp [PipelineInv, initPipeline]

/-- Every pipeline step preserves the invariant. -/
theorem pipelineInv_step (s t : PipelineState) (hst : PipelineStep s t)
    (hs : PipelineInv s) : PipelineInv t := by
  obtain ⟨i1, i2, i3, i4, i5, i6⟩ := hs
  cases hst with
  | logCall h =>
    refine ⟨?_, i2, i3, i4, i5, i6⟩
    intro hp
    have hp2 : 1 ≤ s.closePhase := hp
    rw [h] at hp2
    exact absurd hp2 (by decide)
  | enterBatcher h =>
    refine ⟨?_, ?_, i3, i4, i5, i6⟩
    · intro hp
      have h0 := i1 hp
      show s.logWg - 1 = 0
      omega
    · intro hoc
      have hoc2 : s.outputClosed = true := hoc
      obtain ⟨ha, hb, hc⟩ := i2 hoc2
      have h0 := i1 (by omega)
      exact absurd h (by omega)
  | consumeEvent h h2 =>
    refine ⟨i1, ?_, i3, i4, i5, i6⟩
    intro hoc
    have hoc2 : s.outputClosed = true := hoc
    rw [h2] at hoc2
    exact absurd hoc2 (by decide)
  | sealBatch h h2 =>
    refine ⟨i1, ?_, i3, ?_, i5, i6⟩
    · intro hoc
      have hoc2 : s.outputClosed = true := hoc
      rw [h2] at hoc2
      exact absurd hoc2 (by decide)
    · intro hds
      have hds2 : s.doneSent = true := hds
      have hoc := (i4 hds2).2
      rw [h2] at hoc
      exact absurd hoc (by decide)
  | forwardBatch h =>
    refine ⟨i1, i2, i3, ?_, i5, ?_⟩
    · intro hds
      have hds2 : s.doneSent = true := hds
      obtain ⟨ha, hb⟩ := i4 hds2
      exact ⟨by show s.outputQ - 1 = 0; omega, hb⟩
    · intro hp
      have hp2 : 4 ≤ s.closePhase := hp
      have hds := i5 (by omega)
      have h0 := (i4 hds).1
      exact absurd h (by omega)
  | workerDone h h2 h3 =>
    refine ⟨i1, i2, i3, ?_, ?_, i6⟩
    · intro _
      exact ⟨h, h2⟩
    · intro hp
      rfl
  | streamTerminal h =>
    refine ⟨i1, i2, i3, i4, i5, ?_⟩
    intro hp
    have h0 := i6 hp
    show s.streamsWg - 1 = 0
    omega
  | closeWaitLogWg h h2 =>
    refine ⟨fun _ => h2, ?_, ?_, i4, ?_, ?_⟩
    · intro hoc
      have hoc2 : s.outputClosed = true := hoc
      have hc := (i2 hoc2).2.2
      rw [h] at hc
      exact absurd hc (by decide)
    · intro hp
      have hp2 : (2 : Nat) ≤ 1 := hp
      exact absurd hp2 (by decide)
    · intro hp
      have hp2 : (3 : Nat) ≤ 1 := hp
      exact absurd hp2 (by decide)
    · intro hp
      have hp2 : (4 : Nat) ≤ 1 := hp
      exact absurd hp2 (by decide)
  | closeFlushBatcher h h2 =>
    refine ⟨?_, ?_, fun _ => rfl, ?_, ?_, ?_⟩
    · intro _
      exact i1 (by omega)
    · intro _
      exact ⟨h2, rfl, by simp⟩
    · intro hds
      have hds2 : s.doneSent = true := hds
      have hoc := (i4 hds2).2
      have hc := (i2 hoc).2.2
      rw [h] at hc
      exact absurd hc (by decide)
    · intro hp
      have hp2 : (3 : Nat) ≤ 2 := hp
      exact absurd hp2 (by decide)
    · intro hp
      have hp2 : (4 : Nat) ≤ 2 := hp
      exact absurd hp2 (by decide)
  | closeWaitDone h h2 =>
    refine ⟨?_, ?_, fun _ => i3 (by omega), i4, fun _ => h2, ?_⟩
    · intro _
      exact i1 (by omega)
    · intro hoc
      have hoc2 : s.outputClosed = true := hoc
      obtain ⟨ha, hb, _⟩ := i2 hoc2
      exact ⟨ha, hb, by simp⟩
    · intro hp
      have hp2 : (4 : Nat) ≤ 3 := hp
      exact absurd hp2 (by decide)
  | closeWaitStreams h h2 =>
    refine ⟨?_, ?_, fun _ => i3 (by omega), i4, fun _ => i5 (by omega), fun _ => h2⟩
    · intro _
      exact i1 (by omega)
    · intro hoc
      have hoc2 : s.outputClosed = true := hoc
      obtain ⟨ha, hb, _⟩ := i2 hoc2
      exact ⟨ha, hb, by simp⟩

/-- C4: in every reachable pipeline state, each completed step of
`Logger.Close` certifies its wait, in the code's order: once the first
wait is done all accepted `Log` calls have entered the batcher; once the
batcher flush is done the batcher input is drained, its open batch is
sealed and its output closed; once the worker has signalled `done`
every emitted batch has been forwarded to the stream pool; and when all
four steps are done — the moment `Close` returns — the pool's in-flight
counter is zero, so `Close` never returns while any batch remains
unacknowledged by that counter. -/
theorem c4_close_waits_in_order (s : PipelineState) (hs : PipelineReachable s) :
    (1 ≤ s.closePhase → s.logWg = 0)
    ∧ (2 ≤ s.closePhase → s.outputClosed = true ∧ s.inputQ = 0 ∧ s.openCount = 0)
    ∧ (3 ≤ s.closePhase → s.doneSent = true ∧ s.outputQ = 0)
    ∧ (s.closePhase = 4 → s.streamsWg = 0) := by
  have hinv : PipelineInv s := by
    induction hs with
    | refl => exact pipelineInv_init
    | tail hab hbc ih => exact pipelineInv_step _ _ hbc ih
  obtain ⟨i1, i2, i3, i4, i5, i6⟩ := hinv
  refine ⟨i1, ?_, ?_, ?_⟩
  · intro hp
    have hoc := i3 hp
    exact ⟨hoc, (i2 hoc).1, (i2 hoc).2.1⟩
  · intro hp
    have hds := i5 hp
    exact ⟨hds, (i4 hds).1⟩
  · intro hp
    exact i6 (by omega)

/-- C4, witness: a concrete complete run — one `Log` call, its event
batched and sealed by the flush, forwarded to the pool, acknowledged,
and all four `Close` steps completed — reaches a state with
`closePhase = 4`, at which the theorem yields a zero in-flight
counter. -/
theorem c4_witness :
    PipelineReachable ⟨0, 0, 0, 0, true, true, 0, 4⟩
    ∧ (⟨0, 0, 0, 0, true, true, 0, 4⟩ : PipelineState).streamsWg = 0 := by
  have r0 : PipelineReachable initPipeline := Relation.ReflTransGen.refl
  have r1 : PipelineReachable ⟨1, 0, 0, 0, false, false, 0, 0⟩ :=
    r0.tail (PipelineStep.logCall initPipeline rfl)
  have r2 : PipelineReachable ⟨0, 1, 0, 0, false, false, 0, 0⟩ :=
    r1.tail (PipelineStep.enterBatcher ⟨1, 0, 0, 0, false, false, 0, 0⟩ (by decide))
  have r3 : PipelineReachable ⟨0, 0, 1, 0, false, false, 0, 0⟩ :=
    r2.tail (PipelineStep.consumeEvent ⟨0, 1, 0, 0, false, false, 0, 0⟩ (by decide) rfl)
  have r4 : PipelineReachable ⟨0, 0, 1, 0, false, false, 0, 1⟩ :=
    r3.tail (PipelineStep.closeWaitLogWg ⟨0, 0, 1, 0, false, false, 0, 0⟩ rfl rfl)
  have r5 : PipelineReachable ⟨0, 0, 0, 1, true, false, 0, 2⟩ :=
    r4.tail (PipelineStep.closeFlushBatcher ⟨0, 0, 1, 0, false, false, 0, 1⟩ rfl rfl)
  have r6 : PipelineReachable ⟨0, 0, 0, 0, true, false, 1, 2⟩ :=
    r5.tail (PipelineStep.forwardBatch ⟨0, 0, 0, 1, true, false, 0, 2⟩ (by decide))
  have r7 : PipelineReachable ⟨0, 0, 0, 0, true, true, 1, 2⟩ :=
    r6.tail (PipelineStep.workerDone ⟨0, 0, 0, 0, true, false, 1, 2⟩ rfl rfl rfl)
  have r8 : PipelineReachable ⟨0, 0, 0, 0, true, true, 1, 3⟩ :=
    r7.tail (PipelineStep.closeWaitDone ⟨0, 0, 0, 0, true, true, 1, 2⟩ rfl rfl)
  have r9 : PipelineReachable ⟨0, 0, 0, 0, true, true, 0, 3⟩ :=
    r8.tail (PipelineStep.streamTerminal ⟨0, 0, 0, 0, true, true, 1, 3⟩ (by decide))
  have r10 : PipelineReachable ⟨0, 0, 0, 0, true, true, 0, 4⟩ :=
    r9.tail (PipelineStep.closeWaitStreams ⟨0, 0, 0, 0, true, true, 0, 3⟩ rfl rfl)
  exact ⟨r10, (c4_close_waits_in_order _ r10).2.2.2 rfl⟩

end Cwlogger
